import Mathlib

/-!
Verification of the SQL query validator of `joaosoft/database-mcp`
(package `mcp`: `sql_query_validation.go` and the pagination helper of
`database.go`).

Queries are modelled as `List Char` (Go iterates runes; the length bound
uses UTF-8 byte length, modelled via `Char.utf8Size`).  Go's regex
replacements (`ReplaceAllString`, leftmost non-overlapping matches) are
embedded as direct recursive scanners; scanners whose recursion is not
structural take an explicit fuel argument equal to the input length, so
every definition is executable and kernel-reducible.

Scope notes on character classes:
* RE2 `\s` is exactly `[\t\n\f\r ]` (`isSpaceRe`).
* Go `strings.TrimSpace` trims `unicode.IsSpace` characters; the full
  Unicode White_Space set is listed in `isSpaceGo`.
* Go `strings.ToUpper` is modelled on the ASCII letters (`toUpperChar`);
  non-ASCII case mappings are outside the modelled character range.
-/

/-- RE2 character class `\s` = `[\t\n\f\r ]` (note: no vertical tab). -/
def isSpaceRe (c : Char) : Bool :=
  c = '\t' || c = '\n' || c = '\x0c' || c = '\r' || c = ' '

/-- The Unicode White_Space characters, as tested by `unicode.IsSpace`
(used by `strings.TrimSpace`). -/
def isSpaceGo (c : Char) : Bool :=
  c = '\t' || c = '\n' || c = '\x0b' || c = '\x0c' || c = '\r' || c = ' ' ||
  c = '\x85' || c = '\xa0' || c = ' ' ||
  (' ' ≤ c && c ≤ ' ') ||
  c = ' ' || c = ' ' || c = ' ' || c = ' ' || c = '　'

/-- ASCII branch of `strings.ToUpper`. -/
def toUpperChar (c : Char) : Char :=
  if 'a' ≤ c && c ≤ 'z' then Char.ofNat (c.toNat - 32) else c

/-- `strings.TrimSpace`: drop `unicode.IsSpace` characters at both ends. -/
def trimGo (l : List Char) : List Char :=
  ((l.dropWhile isSpaceGo).reverse.dropWhile isSpaceGo).reverse

/-- UTF-8 byte length of the rune sequence, Go's `len(string)`. -/
def utf8Len (l : List Char) : Nat :=
  (l.map Char.utf8Size).sum

/-- Skip up to (but excluding) the next newline: the extent of a
`--[^\n]*` match after the `--` marker. -/
def skipToNewline : List Char → List Char
  | [] => []
  | c :: rest => if c = '\n' then c :: rest else skipToNewline rest

/-- Fueled scanner for `reLineComments.ReplaceAllString(sql, " ")` with
pattern `--[^\n]*`: each leftmost match `--…` (up to the newline) is
replaced by a single space. -/
def removeLineCommentsF : Nat → List Char → List Char
  | 0, l => l
  | _ + 1, [] => []
  | _ + 1, [c] => [c]
  | f + 1, c1 :: c2 :: rest =>
    if c1 = '-' && c2 = '-' then ' ' :: removeLineCommentsF f (skipToNewline rest)
    else c1 :: removeLineCommentsF f (c2 :: rest)

def removeLineComments (l : List Char) : List Char :=
  removeLineCommentsF l.length l

/-- Lazy search for the closing `*/` of a block comment.  RE2's `.`
does not match a newline, so hitting `\n` before `*/` means the
pattern `/\*.*?\*/` has no match starting at this opener. -/
def findBlockClose : List Char → Option (List Char)
  | [] => none
  | '*' :: '/' :: rest => some rest
  | c :: rest => if c = '\n' then none else findBlockClose rest

/-- Fueled scanner for `reBlockComments.ReplaceAllString(sql, " ")` with
pattern `/\*.*?\*/` (non-dotall, lazy): a leftmost match is replaced by
one space; an unclosed or newline-crossing `/*` is left in place. -/
def removeBlockCommentsF : Nat → List Char → List Char
  | 0, l => l
  | _ + 1, [] => []
  | _ + 1, [c] => [c]
  | f + 1, c1 :: c2 :: rest =>
    if c1 = '/' && c2 = '*' then
      match findBlockClose rest with
      | some rest2 => ' ' :: removeBlockCommentsF f rest2
      | none => c1 :: removeBlockCommentsF f (c2 :: rest)
    else c1 :: removeBlockCommentsF f (c2 :: rest)

def removeBlockComments (l : List Char) : List Char :=
  removeBlockCommentsF l.length l

/-- Fueled scanner for `reMultipleSpaces.ReplaceAllString(sql, " ")`
with pattern `\s+`: every maximal whitespace run becomes one space. -/
def collapseSpacesF : Nat → List Char → List Char
  | 0, l => l
  | _ + 1, [] => []
  | f + 1, c :: rest =>
    if isSpaceRe c then ' ' :: collapseSpacesF f (rest.dropWhile isSpaceRe)
    else c :: collapseSpacesF f rest

def collapseSpaces (l : List Char) : List Char :=
  collapseSpacesF l.length l

/-- The characters of the group in `\s*([(),;])\s*`. -/
def isPunctReChar (c : Char) : Bool :=
  c = '(' || c = ')' || c = ',' || c = ';'

/-- Fueled scanner for `reParensAndCommas.ReplaceAllString(sql, "$1")`
with pattern `\s*([(),;])\s*`: whitespace adjacent to `(`, `)`, `,`,
`;` is removed (leftmost matches, greedy `\s*` on both sides). -/
def removePunctSpacesF : Nat → List Char → List Char
  | 0, l => l
  | _ + 1, [] => []
  | f + 1, c :: rest =>
    if isPunctReChar c then c :: removePunctSpacesF f (rest.dropWhile isSpaceRe)
    else if isSpaceRe c then
      match rest.dropWhile isSpaceRe with
      | [] => c :: rest.takeWhile isSpaceRe
      | p :: rest2 =>
        if isPunctReChar p then p :: removePunctSpacesF f (rest2.dropWhile isSpaceRe)
        else (c :: rest.takeWhile isSpaceRe) ++ removePunctSpacesF f (p :: rest2)
    else c :: removePunctSpacesF f rest

def removePunctSpaces (l : List Char) : List Char :=
  removePunctSpacesF l.length l

/-- `normalizeSQL` of `sql_query_validation.go`: line comments, block
comments, whitespace collapsing, punctuation-adjacent space removal,
then `strings.TrimSpace(strings.ToUpper(sql))`. -/
def normalizeChars (l : List Char) : List Char :=
  trimGo (List.map toUpperChar
    (removePunctSpaces (collapseSpaces (removeBlockComments (removeLineComments l)))))

def normalizeSQL (s : String) : String :=
  String.mk (normalizeChars s.data)

/-- Rest of the list after the first occurrence of `t`, if any. -/
def afterChar (t : Char) : List Char → Option (List Char)
  | [] => none
  | c :: rest => if c = t then some rest else afterChar t rest

/-- Fueled scanner for one literal-masking replacement, e.g.
`reSingleQuotes.ReplaceAllString(sql, "''")` with pattern `'[^']*'`:
each delimited run is replaced by the two bare delimiters. -/
def maskDelimsF (o cl : Char) : Nat → List Char → List Char
  | 0, l => l
  | _ + 1, [] => []
  | f + 1, c :: rest =>
    if c = o then
      match afterChar cl rest with
      | some rest2 => o :: cl :: maskDelimsF o cl f rest2
      | none => c :: maskDelimsF o cl f rest
    else c :: maskDelimsF o cl f rest

def maskDelims (o cl : Char) (l : List Char) : List Char :=
  maskDelimsF o cl l.length l

/-- `removeStringLiterals`: mask `'…'`, then `"…"`, then `[…]`. -/
def removeStringLiteralsL (l : List Char) : List Char :=
  maskDelims '[' ']' (maskDelims '"' '"' (maskDelims '\'' '\'' l))

/-- RE2 word character (`\w`, the complement boundary class for `\b`). -/
def isWordChar (c : Char) : Bool :=
  ('0' ≤ c && c ≤ '9') || ('A' ≤ c && c ≤ 'Z') || ('a' ≤ c && c ≤ 'z') || c = '_'

/-- A `\b` boundary holds before the match position: start of text or a
non-word character (every matched keyword starts with a word char). -/
def boundaryOkBefore : Option Char → Bool
  | none => true
  | some c => !(isWordChar c)

/-- The keyword matches at the head of `l` and a `\b` boundary follows
(end of text or a non-word character). -/
def kwAtHere (kw l : List Char) : Bool :=
  kw.isPrefixOf l &&
    (match l.drop kw.length with
     | [] => true
     | d :: _ => !(isWordChar d))

def containsKwAux (kw : List Char) : Option Char → List Char → Bool
  | prev, [] => boundaryOkBefore prev && kwAtHere kw []
  | prev, c :: rest =>
    (boundaryOkBefore prev && kwAtHere kw (c :: rest)) || containsKwAux kw (some c) rest

/-- `containsKeyword`: whole-word (`\b…\b`) match of `kw` anywhere in
`sql`.  All keywords the validator passes here consist of word
characters only, for which this is exactly RE2's `\b`+kw+`\b`. -/
def containsKw (sql kw : List Char) : Bool :=
  containsKwAux kw none sql

/-- `strings.Count(s, pat)` for a non-empty pattern: number of
non-overlapping leftmost occurrences. -/
def countSubF : Nat → List Char → List Char → Nat
  | 0, _, _ => 0
  | _ + 1, [], _ => 0
  | f + 1, c :: rest, pat =>
    if pat.isPrefixOf (c :: rest) then 1 + countSubF f ((c :: rest).drop pat.length) pat
    else countSubF f rest pat

def countSub (s pat : List Char) : Nat :=
  countSubF s.length s pat

/-- RE2 hex-digit class of `0X[0-9A-F]+`. -/
def isHexDigitRe (c : Char) : Bool :=
  ('0' ≤ c && c ≤ '9') || ('A' ≤ c && c ≤ 'F')

/-- Number of (leftmost, non-overlapping, greedy) matches of
`0X[0-9A-F]+`, as counted by `reHexPattern.FindAllString`. -/
def hexCountF : Nat → List Char → Nat
  | 0, _ => 0
  | _ + 1, [] => 0
  | _ + 1, [_] => 0
  | f + 1, c1 :: c2 :: rest =>
    if c1 = '0' && c2 = 'X' && (match rest with | d :: _ => isHexDigitRe d | [] => false) then
      1 + hexCountF f (rest.dropWhile isHexDigitRe)
    else hexCountF f (c2 :: rest)

def hexCount (l : List Char) : Nat :=
  hexCountF l.length l

/-- Number of matches of `(CHAR|NCHAR)\s*\(`, as counted by
`reCharNCharPattern.FindAllString`. -/
def charFnCountF : Nat → List Char → Nat
  | 0, _ => 0
  | _ + 1, [] => 0
  | f + 1, c :: rest =>
    match
      (if "CHAR".data.isPrefixOf (c :: rest) then
        match ((c :: rest).drop 4).dropWhile isSpaceRe with
        | '(' :: r3 => some r3
        | _ => none
      else none) with
    | some r => 1 + charFnCountF f r
    | none =>
      match
        (if "NCHAR".data.isPrefixOf (c :: rest) then
          match ((c :: rest).drop 5).dropWhile isSpaceRe with
          | '(' :: r3 => some r3
          | _ => none
        else none) with
      | some r => 1 + charFnCountF f r
      | none => charFnCountF f rest

def charFnCount (l : List Char) : Nat :=
  charFnCountF l.length l

/-- One step state of the semicolon scanner of
`validateMultipleStatements`, walking the raw query.  The flags are
Go's `inString` and `escapeNext`; a `;` outside a string errors when
followed by any non-whitespace text. -/
def multiStmt : List Char → Bool → Bool → Except String Unit
  | [], _, _ => .ok ()
  | c :: rest, inStr, esc =>
    if esc then multiStmt rest inStr false
    else if c = '\\' then multiStmt rest inStr true
    else if c = '\'' then multiStmt rest (!inStr) esc
    else if c = ';' then
      if inStr then multiStmt rest inStr esc
      else if rest ≠ [] ∧ trimGo rest ≠ [] then .error "multiple commands are not allowed"
      else multiStmt rest inStr esc
    else multiStmt rest inStr esc

/-- Scanner deciding whether `SELECT\s+.*\s+INTO\s+` (the pattern
`reSelectInto`, where `.` does not match `\n` but `\s` does) matches
starting right after a `SELECT` occurrence.  State per position `j`
(the current head): `prevSp` — previous character is `\s`; `pastL` — a
non-`\s` character occurred before `j` (so we are past the maximal
leading whitespace run that `\s+` can absorb); `nlOpen` — some `\n`
past that run is so far followed only by `\s` characters (still
absorbable by the `\s+` before `INTO`); `bad` — some `\n` can no
longer be absorbed by either `\s+`, so it would have to be matched by
`.` (impossible); `consumed` — number of characters before `j` (the
two `\s+` groups need at least one character each, so `j ≥ 2`). -/
def selIntoTailGo : List Char → Bool → Bool → Bool → Bool → Nat → Bool
  | [], _, _, _, _, _ => false
  | c :: rest, prevSp, pastL, nlOpen, bad, consumed =>
    (decide (2 ≤ consumed) && prevSp && !bad &&
      (match c :: rest with
       | 'I' :: 'N' :: 'T' :: 'O' :: c5 :: _ => isSpaceRe c5
       | _ => false)) ||
    (if isSpaceRe c then
      selIntoTailGo rest true pastL (nlOpen || (c = '\n' && pastL)) bad (consumed + 1)
    else
      selIntoTailGo rest false true false (bad || nlOpen) (consumed + 1))

/-- The part of `SELECT\s+.*\s+INTO\s+` after `SELECT` matches a prefix
of `r` (the first character must start the `\s+`). -/
def selIntoTail (r : List Char) : Bool :=
  match r with
  | [] => false
  | c :: _ => isSpaceRe c && selIntoTailGo r false false false false 0

def selIntoMatchGo : List Char → Bool
  | [] => false
  | c :: rest =>
    ("SELECT".data.isPrefixOf (c :: rest) && selIntoTail ((c :: rest).drop 6)) ||
      selIntoMatchGo rest

/-- `reSelectInto.MatchString`: does `SELECT\s+.*\s+INTO\s+` match
anywhere in `s`? -/
def selIntoMatch (s : List Char) : Bool :=
  selIntoMatchGo s

/-- `strings.Contains s pat`: `pat` occurs as a contiguous substring. -/
def hasSub : List Char → List Char → Bool
  | [], pat => pat.isEmpty
  | c :: rest, pat => pat.isPrefixOf (c :: rest) || hasSub rest pat

/-- A control character the encoding rule rejects: code point below 32
other than `\n`, `\r`, `\t`. -/
def isCtlBad (c : Char) : Bool :=
  decide (c.toNat < 32) && !(c = '\n') && !(c = '\r') && !(c = '\t')

/-- `validateEncoding`: control-character scan over the raw query, then
the hex-literal count and the CHAR/NCHAR count, both measured on the
normalized (v.normalized) text. -/
def validateEncoding (raw norm : List Char) : Except String Unit :=
  if raw.any isCtlBad then .error "suspicious control character detected"
  else if hasSub norm "0X".data ∧ 3 < hexCount norm then
    .error "excessive use of hexadecimal encoding"
  else if 10 < charFnCount norm then
    .error "excessive use of CHAR/NCHAR (possible obfuscation)"
  else .ok ()

/-- The depth loop of `validateParenthesesDepth`: final depth and
maximum depth observed (maximum is only updated when `(` raises it). -/
def parenDepths : List Char → Int → Int → Int × Int
  | [], d, m => (d, m)
  | c :: rest, d, m =>
    if c = '(' then parenDepths rest (d + 1) (if m < d + 1 then d + 1 else m)
    else if c = ')' then parenDepths rest (d - 1) m
    else parenDepths rest d m

/-- `validateParenthesesDepth` over the raw query. -/
def validateParenDepth (qc : List Char) : Except String Unit :=
  let r := parenDepths qc 0 0
  if r.1 ≠ 0 then .error "unbalanced parentheses"
  else if 20 < r.2 then .error "parenthesis depth too large (maximum 20)"
  else .ok ()

def dmlCmds : List String := ["INSERT", "UPDATE", "DELETE", "TRUNCATE", "MERGE"]

def ddlCmds : List String := ["DROP", "CREATE", "ALTER", "RENAME"]

def execCmds : List String := ["EXEC", "EXECUTE", "SP_EXECUTESQL", "XP_CMDSHELL"]

def transactionCmds : List String :=
  ["BEGIN TRANSACTION", "BEGIN TRAN", "COMMIT", "ROLLBACK", "SAVE TRANSACTION"]

def backupCmds : List String := ["BACKUP", "RESTORE", "DUMP"]

def adminCmds : List String := ["SHUTDOWN", "RECONFIGURE", "DBCC", "KILL"]

def securityCmds : List String := ["GRANT", "REVOKE", "DENY"]

def dangerousFunctions : List String :=
  ["XP_", "SP_CONFIGURE", "SP_ADDSRVROLEMEMBER", "SP_ADDLOGIN",
   "OPENROWSET", "OPENDATASOURCE", "OPENQUERY", "BULK INSERT", "BCP"]

def timingFunctions : List String := ["WAITFOR", "DELAY", "SLEEP", "BENCHMARK"]

/-- First keyword of `kws` (in list order, as the Go loops iterate)
that `containsKeyword` finds in `sql`. -/
def findKw (sql : List Char) (kws : List String) : Option String :=
  kws.find? (fun k => containsKw sql k.data)

/-- First pattern of `pats` that `strings.Contains` finds in `sql`. -/
def findContained (sql : List Char) (pats : List String) : Option String :=
  pats.find? (fun p => hasSub sql p.data)

/-- Rules 5–20 of `Validate` (everything after the size, emptiness and
SELECT/WITH-prefix checks), in the exact order of the Go source, each
early-returning its error. -/
def validateRulesL (qc norm masked : List Char) : Except String Unit :=
  match findKw masked dmlCmds with
  | some k => .error ("command not allowed: " ++ k)
  | none =>
   match findKw masked ddlCmds with
   | some k => .error ("command not allowed: " ++ k)
   | none =>
    match findKw masked execCmds with
    | some k => .error ("command not allowed: " ++ k)
    | none =>
     match findContained masked transactionCmds with
     | some k => .error ("Transaction commands are not allowed: " ++ k)
     | none =>
      match findKw masked backupCmds with
      | some k => .error ("command not allowed: " ++ k)
      | none =>
       match findKw masked adminCmds with
       | some k => .error ("administrative command not allowed: " ++ k)
       | none =>
        match findKw masked securityCmds with
        | some k => .error ("security command not allowed: " ++ k)
        | none =>
         match findContained masked dangerousFunctions with
         | some f => .error ("dangerous function not permitted: " ++ f)
         | none =>
          match multiStmt qc false false with
          | .error e => .error e
          | .ok _ =>
           if selIntoMatch masked then .error "SELECT INTO is not allowed"
           else if 0 < countSub masked ";".data then
             .error "Multiple commands are not allowed"
           else if 5 < countSub masked "UNION".data then
             .error "too many UNION clauses (maximum 5)"
           else
            match validateEncoding qc norm with
            | .error e => .error e
            | .ok _ =>
             match findKw masked timingFunctions with
             | some k => .error ("time function not allowed: " ++ k)
             | none =>
              if 10 < countSub masked "SELECT".data then
                .error "too many subqueries (maximum 10)"
              else validateParenDepth qc

/-- `(*SQLValidator).Validate` as a function of the raw query
characters: emptiness, size, SELECT/WITH prefix of the normalized
query, then the rule chain on the literal-masked text. -/
def ValidateL (qc : List Char) : Except String Unit :=
  if trimGo qc = [] then .error "empty query"
  else if 10000 < utf8Len qc then .error "query too long (maximum 10000 characters)"
  else if !("SELECT".data.isPrefixOf (normalizeChars qc))
          && !("WITH".data.isPrefixOf (normalizeChars qc)) then
    .error "Only SELECT or WITH queries are allowed"
  else validateRulesL qc (normalizeChars qc) (removeStringLiteralsL (normalizeChars qc))

/-- `NewSQLValidator(query).Validate()`. -/
def Validate (q : String) : Except String Unit :=
  ValidateL q.data

/-!
Stateful model of the `keywordPatterns` cache.  In the Go source the
map is package-global and lazily populated by `containsKeyword`: on a
miss it compiles `\b`+keyword+`\b` and stores it under the keyword.
Since the map is written only there, the entry for a keyword is always
that keyword's own pattern, so the cache state is faithfully modelled
by the list of keywords present (in insertion order). -/

/-- `containsKeyword` over a loop of keywords, threading the cache:
each keyword's pattern is inserted on a miss (whether or not it then
matches), and the loop stops at the first matching keyword. -/
def findKwSt (sql : List Char) : List String → List String → Option String × List String
  | cache, [] => (none, cache)
  | cache, k :: ks =>
    let cache2 := if cache.contains k then cache else cache ++ [k]
    if containsKw sql k.data then (some k, cache2) else findKwSt sql cache2 ks

/-- Rules 5–20 with the lazily populated pattern cache threaded through
every `containsKeyword` call, in source order. -/
def validateRulesSt (cache : List String) (qc norm masked : List Char) :
    Except String Unit × List String :=
  let r1 := findKwSt masked cache dmlCmds
  match r1.1 with
  | some k => (.error ("command not allowed: " ++ k), r1.2)
  | none =>
   let r2 := findKwSt masked r1.2 ddlCmds
   match r2.1 with
   | some k => (.error ("command not allowed: " ++ k), r2.2)
   | none =>
    let r3 := findKwSt masked r2.2 execCmds
    match r3.1 with
    | some k => (.error ("command not allowed: " ++ k), r3.2)
    | none =>
     match findContained masked transactionCmds with
     | some k => (.error ("Transaction commands are not allowed: " ++ k), r3.2)
     | none =>
      let r4 := findKwSt masked r3.2 backupCmds
      match r4.1 with
      | some k => (.error ("command not allowed: " ++ k), r4.2)
      | none =>
       let r5 := findKwSt masked r4.2 adminCmds
       match r5.1 with
       | some k => (.error ("administrative command not allowed: " ++ k), r5.2)
       | none =>
        let r6 := findKwSt masked r5.2 securityCmds
        match r6.1 with
        | some k => (.error ("security command not allowed: " ++ k), r6.2)
        | none =>
         match findContained masked dangerousFunctions with
         | some f => (.error ("dangerous function not permitted: " ++ f), r6.2)
         | none =>
          match multiStmt qc false false with
          | .error e => (.error e, r6.2)
          | .ok _ =>
           if selIntoMatch masked then (.error "SELECT INTO is not allowed", r6.2)
           else if 0 < countSub masked ";".data then
             (.error "Multiple commands are not allowed", r6.2)
           else if 5 < countSub masked "UNION".data then
             (.error "too many UNION clauses (maximum 5)", r6.2)
           else
            match validateEncoding qc norm with
            | .error e => (.error e, r6.2)
            | .ok _ =>
             let r7 := findKwSt masked r6.2 timingFunctions
             match r7.1 with
             | some k => (.error ("time function not allowed: " ++ k), r7.2)
             | none =>
              if 10 < countSub masked "SELECT".data then
                (.error "too many subqueries (maximum 10)", r7.2)
              else (validateParenDepth qc, r7.2)

/-- `Validate` with the shared keyword-pattern cache made explicit:
takes the cache before the call, returns the outcome and the cache
after the call. -/
def ValidateSt (cache : List String) (qc : List Char) :
    Except String Unit × List String :=
  if trimGo qc = [] then (.error "empty query", cache)
  else if 10000 < utf8Len qc then
    (.error "query too long (maximum 10000 characters)", cache)
  else if !("SELECT".data.isPrefixOf (normalizeChars qc))
          && !("WITH".data.isPrefixOf (normalizeChars qc)) then
    (.error "Only SELECT or WITH queries are allowed", cache)
  else validateRulesSt cache qc (normalizeChars qc) (removeStringLiteralsL (normalizeChars qc))

/-- `PaginationParams` of `database.go`. -/
structure PaginationParams where
  Page : Int
  PageSize : Int
  Offset : Int
deriving Repr, DecidableEq

/-- `GetPaginationParams` of `database.go`.  The argument bag lookups
`args["page"].(float64)` and `args["page_size"].(float64)` are
modelled as `Option Int`: `none` when the key is missing or the value
is not a number, otherwise the truncated integer value. -/
def GetPaginationParams (pageArg pageSizeArg : Option Int)
    (defaultPageSize maxPageSize : Int) : PaginationParams :=
  let page : Int :=
    match pageArg with
    | some p => if p < 1 then 1 else p
    | none => 1
  let pageSize : Int :=
    match pageSizeArg with
    | some ps0 =>
      let ps := if ps0 < 1 then defaultPageSize else ps0
      if maxPageSize < ps then maxPageSize else ps
    | none => defaultPageSize
  { Page := page, PageSize := pageSize, Offset := (page - 1) * pageSize }

/-- The match result of a keyword loop does not depend on the incoming
cache state (a cached pattern for a keyword is that keyword's own
pattern). -/
theorem fst_findKwSt (sql : List Char) (ks : List String) :
    ∀ cache, (findKwSt sql cache ks).1 = findKw sql ks := by
  induction ks with
  | nil => intro cache; rfl
  | cons k ks ih =>
    intro cache
    by_cases h : containsKw sql k.data
    · simp [findKwSt, findKw, List.find?_cons, h]
    · simp [findKwSt, findKw, List.find?_cons, h]
      simpa [findKw] using ih _

/-- The outcome of the rule chain does not depend on the cache. -/
theorem fst_validateRulesSt (cache : List String) (qc norm masked : List Char) :
    (validateRulesSt cache qc norm masked).1 = validateRulesL qc norm masked := by
  unfold validateRulesSt validateRulesL
  simp only [fst_findKwSt]
  cases h1 : findKw masked dmlCmds with
  | some k => rfl
  | none =>
  cases h2 : findKw masked ddlCmds with
  | some k => rfl
  | none =>
  cases h3 : findKw masked execCmds with
  | some k => rfl
  | none =>
  cases h4 : findContained masked transactionCmds with
  | some k => rfl
  | none =>
  cases h5 : findKw masked backupCmds with
  | some k => rfl
  | none =>
  cases h6 : findKw masked adminCmds with
  | some k => rfl
  | none =>
  cases h7 : findKw masked securityCmds with
  | some k => rfl
  | none =>
  cases h8 : findContained masked dangerousFunctions with
  | some f => rfl
  | none =>
  cases h9 : multiStmt qc false false with
  | error e => rfl
  | ok u =>
  cases u
  dsimp only
  split_ifs <;>
    first
    | rfl
    | (cases h10 : validateEncoding qc norm with
       | error e => rfl
       | ok u =>
         cases u
         cases h11 : findKw masked timingFunctions with
         | some k => rfl
         | none => rfl)

/-- The outcome of `Validate` does not depend on the cache. -/
theorem fst_ValidateSt (cache : List String) (qc : List Char) :
    (ValidateSt cache qc).1 = ValidateL qc := by
  by_cases h1 : trimGo qc = []
  · simp [ValidateSt, ValidateL, h1]
  · by_cases h2 : 10000 < utf8Len qc
    · simp [ValidateSt, ValidateL, h1, h2]
    · by_cases h3 : (!("SELECT".data.isPrefixOf (normalizeChars qc))
          && !("WITH".data.isPrefixOf (normalizeChars qc))) = true
      · simp [ValidateSt, ValidateL, h1, h2, h3]
      · simp [ValidateSt, ValidateL, h1, h2, h3, fst_validateRulesSt]

/-- Depth contribution of one character in the parenthesis scan. -/
def parenDelta (c : Char) : Int :=
  if c = '(' then 1 else if c = ')' then -1 else 0

/-- Specification of the maximum running depth: the maximum over all
prefixes `p` of the running depth `d` plus the net parenthesis delta
of `p`, written recursively. -/
def maxPrefDepth : List Char → Int → Int
  | [], d => d
  | c :: rest, d => max d (maxPrefDepth rest (d + parenDelta c))

theorem le_maxPrefDepth (l : List Char) : ∀ d : Int, d ≤ maxPrefDepth l d := by
  induction l with
  | nil => intro d; exact le_refl d
  | cons c rest _ => intro d; exact le_max_left _ _

/-- The final depth of the scan is the open-count minus the
close-count. -/
theorem parenDepths_fst (l : List Char) : ∀ d m : Int,
    (parenDepths l d m).1 = d + (l.count '(' : Int) - (l.count ')' : Int) := by
  induction l with
  | nil => intro d m; simp [parenDepths]
  | cons c rest ih =>
    intro d m
    rcases eq_or_ne c '(' with h1 | h1
    · subst h1
      have e : (parenDepths ('(' :: rest) d m).1
          = (parenDepths rest (d + 1) (if m < d + 1 then d + 1 else m)).1 := rfl
      rw [e, ih]
      simp [List.count_cons]
      omega
    · rcases eq_or_ne c ')' with h2 | h2
      · subst h2
        have e : (parenDepths (')' :: rest) d m).1 = (parenDepths rest (d - 1) m).1 := rfl
        rw [e, ih]
        simp [List.count_cons]
        omega
      · have e : parenDepths (c :: rest) d m = parenDepths rest d m := by
          simp [parenDepths, h1, h2]
        rw [e, ih]
        simp [List.count_cons, h1, h2, Ne.symm h1, Ne.symm h2]

/-- The tracked maximum of the scan equals the maximum running depth
(given that the accumulator already dominates the current depth, as at
the initial call where both are zero). -/
theorem parenDepths_snd (l : List Char) : ∀ d m : Int, d ≤ m →
    (parenDepths l d m).2 = max m (maxPrefDepth l d) := by
  induction l with
  | nil => intro d m h; simp [parenDepths, maxPrefDepth, max_eq_left h]
  | cons c rest ih =>
    intro d m h
    rcases eq_or_ne c '(' with h1 | h1
    · subst h1
      have e1 : (if m < d + 1 then d + 1 else m) = max m (d + 1) := by
        rcases le_or_lt (d + 1) m with hc | hc
        · rw [if_neg (by omega), max_eq_left hc]
        · rw [if_pos hc, max_eq_right (le_of_lt hc)]
      have hX := le_maxPrefDepth rest (d + 1)
      calc (parenDepths ('(' :: rest) d m).2
          = (parenDepths rest (d + 1) (if m < d + 1 then d + 1 else m)).2 := rfl
        _ = (parenDepths rest (d + 1) (max m (d + 1))).2 := by rw [e1]
        _ = max (max m (d + 1)) (maxPrefDepth rest (d + 1)) := ih _ _ (le_max_right _ _)
        _ = max m (max (d + 1) (maxPrefDepth rest (d + 1))) := max_assoc _ _ _
        _ = max m (maxPrefDepth rest (d + 1)) := by rw [max_eq_right hX]
        _ = max m (max d (maxPrefDepth rest (d + 1))) := by
              rw [max_eq_right (le_trans (by omega : d ≤ d + 1) hX)]
        _ = max m (maxPrefDepth ('(' :: rest) d) := rfl
    · rcases eq_or_ne c ')' with h2 | h2
      · subst h2
        calc (parenDepths (')' :: rest) d m).2
            = (parenDepths rest (d - 1) m).2 := rfl
          _ = max m (maxPrefDepth rest (d - 1)) := ih _ _ (by omega)
          _ = max m (max d (maxPrefDepth rest (d - 1))) := by
                rcases le_or_lt d (maxPrefDepth rest (d - 1)) with hle | hlt
                · rw [max_eq_right hle]
                · rw [max_eq_left (le_of_lt hlt), max_eq_left h,
                      max_eq_left (le_trans (le_of_lt hlt) h)]
          _ = max m (maxPrefDepth (')' :: rest) d) := rfl
      · have e : parenDepths (c :: rest) d m = parenDepths rest d m := by
          simp [parenDepths, h1, h2]
        have e2 : maxPrefDepth (c :: rest) d = max d (maxPrefDepth rest d) := by
          simp [maxPrefDepth, parenDelta, h1, h2]
        rw [e, e2, ih _ _ h, max_eq_right (le_maxPrefDepth rest d)]

theorem utf8Len_replicate (n : Nat) (c : Char) :
    utf8Len (List.replicate n c) = n * c.utf8Size := by
  induction n with
  | zero => simp [utf8Len]
  | succ n ih =>
    rw [List.replicate_succ]
    simp only [utf8Len, List.map_cons, List.sum_cons] at ih ⊢
    rw [ih]
    ring

theorem dropWhile_space_replicate (n : Nat) :
    List.dropWhile isSpaceGo (List.replicate n ' ') = [] := by
  induction n with
  | zero => rfl
  | succ n ih =>
    rw [List.replicate_succ, List.dropWhile_cons]
    simp [show isSpaceGo ' ' = true from rfl, ih]

theorem trimGo_replicate_space (n : Nat) :
    trimGo (List.replicate n ' ') = [] := by
  unfold trimGo
  rw [dropWhile_space_replicate]
  rfl

theorem trimGo_replicate_of_not_space (c : Char) (hc : isSpaceGo c = false) (n : Nat) :
    trimGo (List.replicate n c) = List.replicate n c := by
  have hdw : List.dropWhile isSpaceGo (List.replicate n c) = List.replicate n c := by
    cases n with
    | zero => rfl
    | succ m => rw [List.replicate_succ, List.dropWhile_cons, hc]; simp
  unfold trimGo
  rw [hdw, List.reverse_replicate, hdw, List.reverse_replicate]

set_option maxRecDepth 16000

/-- Decidable equality of validation outcomes, for concrete checks. -/
instance : DecidableEq (Except String Unit) := fun a b =>
  match a, b with
  | .ok u, .ok v => isTrue (by cases u; cases v; rfl)
  | .error e, .error f =>
    if h : e = f then isTrue (by rw [h])
    else isFalse (fun hh => h (by injection hh))
  | .ok _, .error _ => isFalse (fun hh => by injection hh)
  | .error _, .ok _ => isFalse (fun hh => by injection hh)

/-- Claim C1: the spec says `SELECT 1;` is Accepted (a single trailing
semicolon is permitted).  The semicolon scanner
(`validateMultipleStatements`) indeed tolerates it, but rule 15 then
rejects any `;` left in the masked text, so `Validate` returns the
stacked-query error `Multiple commands are not allowed`. -/
theorem claim_C1_trailing_semicolon_rejected :
    multiStmt "SELECT 1;".data false false = .ok () ∧
    Validate "SELECT 1;" = .error "Multiple commands are not allowed" :=
  ⟨rfl, rfl⟩

/-- Claim C2: the spec says `normalize` is idempotent for every input.
It is not: `/*` `*/` separated by a newline is not a block-comment
match for the non-dotall pattern, but whitespace collapsing turns the
newline into a space, so a second pass removes the rebuilt comment. -/
theorem claim_C2_normalize_not_idempotent :
    normalizeSQL "/*\n*/" = "/* */" ∧
    normalizeSQL "/* */" = "" ∧
    normalizeSQL (normalizeSQL "/*\n*/") ≠ normalizeSQL "/*\n*/" :=
  ⟨rfl, rfl, by decide⟩

/-- Claim C4: a DDL keyword confined to a single-quoted literal is
masked away and does not trigger the denylist: the query is accepted. -/
theorem claim_C4_literal_safety :
    Validate "SELECT * FROM t WHERE name = 'DROP TABLE'" = .ok () ∧
    removeStringLiteralsL (normalizeChars "SELECT * FROM t WHERE name = 'DROP TABLE'".data)
      = "SELECT * FROM T WHERE NAME = ''".data :=
  ⟨rfl, rfl⟩

/-- Claim C6: the spec requires the keyword-pattern table to be built
once at process start and never mutated by `Validate`.  The code
populates it lazily: the first `Validate` call on `SELECT 1`, starting
from the empty cache, inserts all 27 keyword patterns. -/
theorem claim_C6_lazy_cache_mutation :
    ValidateSt [] "SELECT 1".data =
      (.ok (), ["INSERT", "UPDATE", "DELETE", "TRUNCATE", "MERGE",
                "DROP", "CREATE", "ALTER", "RENAME",
                "EXEC", "EXECUTE", "SP_EXECUTESQL", "XP_CMDSHELL",
                "BACKUP", "RESTORE", "DUMP",
                "SHUTDOWN", "RECONFIGURE", "DBCC", "KILL",
                "GRANT", "REVOKE", "DENY",
                "WAITFOR", "DELAY", "SLEEP", "BENCHMARK"]) ∧
    (ValidateSt [] "SELECT 1".data).2 ≠ [] :=
  ⟨rfl, by decide⟩

/-- Claim C10: the outcome of `Validate` depends only on the query
text, not on the warm or cold state of the keyword-pattern cache. -/
theorem claim_C10_cache_independent (cache1 cache2 : List String) (q : String) :
    (ValidateSt cache1 q.data).1 = Validate q ∧
    (ValidateSt cache1 q.data).1 = (ValidateSt cache2 q.data).1 := by
  refine ⟨fst_ValidateSt cache1 q.data, ?_⟩
  rw [fst_ValidateSt, fst_ValidateSt]

/-- Claim C3 counterexample: the empty query's normalized form does not
start with `SELECT` or `WITH`, yet `Validate` rejects it as
`empty query`, not with the `NotReadOnly` error, because the emptiness
check runs first. -/
theorem claim_C3_counterexample :
    Validate "" = .error "empty query" ∧
    ("SELECT".data.isPrefixOf (normalizeChars "".data)
      || "WITH".data.isPrefixOf (normalizeChars "".data)) = false ∧
    Validate "" ≠ .error "Only SELECT or WITH queries are allowed" :=
  ⟨rfl, rfl, by decide⟩

/-- Claim C3 (amended): every non-blank query of at most 10000 bytes
whose normalized form starts with neither `SELECT` nor `WITH` is
rejected with the `Only SELECT or WITH queries are allowed` error. -/
theorem claim_C3_amended (q : String)
    (h1 : trimGo q.data ≠ [])
    (h2 : utf8Len q.data ≤ 10000)
    (h3 : ("SELECT".data.isPrefixOf (normalizeChars q.data)
      || "WITH".data.isPrefixOf (normalizeChars q.data)) = false) :
    Validate q = .error "Only SELECT or WITH queries are allowed" := by
  have h3a : "SELECT".data.isPrefixOf (normalizeChars q.data) = false :=
    (Bool.or_eq_false_iff.mp h3).1
  have h3b : "WITH".data.isPrefixOf (normalizeChars q.data) = false :=
    (Bool.or_eq_false_iff.mp h3).2
  unfold Validate ValidateL
  rw [if_neg h1, if_neg (by omega : ¬ 10000 < utf8Len q.data),
      if_pos (by rw [h3a, h3b]; rfl)]

theorem claim_C3_amended_witness :
    trimGo "DELETE FROM t".data ≠ [] ∧
    utf8Len "DELETE FROM t".data ≤ 10000 ∧
    Validate "DELETE FROM t" = .error "Only SELECT or WITH queries are allowed" :=
  ⟨by decide, by decide, claim_C3_amended "DELETE FROM t" (by decide) (by decide) (by decide)⟩

/-- A query whose trimmed text is empty is rejected as `empty query`. -/
theorem validate_eq_empty_error (q : String) (h : trimGo q.data = []) :
    Validate q = .error "empty query" := by
  unfold Validate ValidateL
  rw [if_pos h]

/-- Claim C7 counterexample: a blank query longer than 10000 bytes is
rejected as `empty query`, not `query too long`: emptiness is checked
before size, so size is not the first rule. -/
theorem claim_C7_counterexample :
    10000 < utf8Len (List.replicate 10001 ' ') ∧
    Validate (String.mk (List.replicate 10001 ' ')) = .error "empty query" := by
  constructor
  · rw [utf8Len_replicate, show Char.utf8Size ' ' = 1 from rfl]
    norm_num
  · exact validate_eq_empty_error _ (trimGo_replicate_space 10001)

/-- Claim C7 (amended): every non-blank query longer than 10000 bytes
is rejected with `query too long (maximum 10000 characters)` (a blank
over-long query is rejected as `empty query` instead). -/
theorem claim_C7_amended (q : String)
    (h1 : trimGo q.data ≠ [])
    (h2 : 10000 < utf8Len q.data) :
    Validate q = .error "query too long (maximum 10000 characters)" := by
  unfold Validate ValidateL
  rw [if_neg h1, if_pos h2]

theorem claim_C7_amended_witness :
    trimGo (List.replicate 10001 'A') ≠ [] ∧
    10000 < utf8Len (List.replicate 10001 'A') ∧
    Validate (String.mk (List.replicate 10001 'A'))
      = .error "query too long (maximum 10000 characters)" := by
  have h1 : trimGo (List.replicate 10001 'A') ≠ [] := by
    rw [trimGo_replicate_of_not_space 'A' rfl]
    intro hcontra
    have hlen := congrArg List.length hcontra
    rw [List.length_replicate, List.length_nil] at hlen
    exact absurd hlen (by norm_num)
  have h2 : 10000 < utf8Len (List.replicate 10001 'A') := by
    rw [utf8Len_replicate, show Char.utf8Size 'A' = 1 from rfl]
    norm_num
  exact ⟨h1, h2, claim_C7_amended (String.mk (List.replicate 10001 'A')) h1 h2⟩

/-- Claim C5 counterexample: a query whose four hexadecimal sequences
lie entirely inside a single-quoted literal (the masked text is
`SELECT ''`, with no hex pattern left) is nevertheless rejected with
the hex-encoding error, because the rule counts matches in the
normalized, unmasked text. -/
theorem claim_C5_counterexample :
    removeStringLiteralsL (normalizeChars "SELECT '0XA 0XB 0XC 0XD'".data)
      = "SELECT ''".data ∧
    hexCount (removeStringLiteralsL (normalizeChars "SELECT '0XA 0XB 0XC 0XD'".data)) = 0 ∧
    Validate "SELECT '0XA 0XB 0XC 0XD'" = .error "excessive use of hexadecimal encoding" :=
  ⟨rfl, rfl, rfl⟩

/-- Claim C5 (amended): the hexadecimal-encoding rule counts
occurrences of `0X[0-9A-F]+` in the normalized (unmasked) query text,
so hex sequences inside quoted literals do count: `validateEncoding`
returns the hex error exactly when the raw text has no bad control
character, the normalized text contains `0X`, and the normalized text
has more than 3 hex matches. -/
theorem claim_C5_amended :
    (∀ raw norm : List Char,
      (validateEncoding raw norm = .error "excessive use of hexadecimal encoding" ↔
        (raw.any isCtlBad = false ∧ hasSub norm "0X".data = true ∧ 3 < hexCount norm)))
  ∧ Validate "SELECT '0XA 0XB 0XC 0XD'" = .error "excessive use of hexadecimal encoding" := by
  constructor
  · intro raw norm
    unfold validateEncoding
    split
    next hc =>
      constructor
      · intro h
        injection h with h'
        exact absurd h' (by decide)
      · rintro ⟨ha, -, -⟩
        rw [hc] at ha
        exact Bool.noConfusion ha
    next hc =>
      have hc' : raw.any isCtlBad = false := by
        revert hc; cases raw.any isCtlBad <;> simp
      split
      next hh =>
        simp [hc', hh.1, hh.2]
      next hh =>
        split
        next hch =>
          constructor
          · intro h
            injection h with h'
            exact absurd h' (by decide)
          · rintro ⟨-, hb, hcnt⟩
            exact absurd ⟨hb, hcnt⟩ hh
        next hch =>
          constructor
          · intro h
            exact Except.noConfusion h
          · rintro ⟨-, hb, hcnt⟩
            exact absurd ⟨hb, hcnt⟩ hh
  · rfl

theorem claim_C5_amended_witness :
    validateEncoding [] "0XA 0XB 0XC 0XD".data
      = .error "excessive use of hexadecimal encoding" :=
  (claim_C5_amended.1 [] "0XA 0XB 0XC 0XD".data).mpr
    ⟨rfl, by decide, by decide⟩

/-- Claim C8: the parenthesis analysis runs on the raw query;
`UnbalancedParentheses` fires exactly when the `(` and `)` counts
differ, and for balanced queries `ExcessiveNesting` fires exactly when
the maximum running depth exceeds 20; a query with 21 nested
parentheses is rejected and an otherwise-valid one with exactly 20 is
accepted. -/
theorem claim_C8_parentheses :
    (∀ qc : List Char,
      (validateParenDepth qc = .error "unbalanced parentheses" ↔
        qc.count '(' ≠ qc.count ')'))
  ∧ (∀ qc : List Char, qc.count '(' = qc.count ')' →
      (validateParenDepth qc = .error "parenthesis depth too large (maximum 20)" ↔
        20 < maxPrefDepth qc 0))
  ∧ Validate (String.mk ("SELECT ".data ++ List.replicate 21 '(' ++ '1' :: List.replicate 21 ')'))
      = .error "parenthesis depth too large (maximum 20)"
  ∧ Validate (String.mk ("SELECT ".data ++ List.replicate 20 '(' ++ '1' :: List.replicate 20 ')'))
      = .ok () := by
  have hfst : ∀ qc : List Char,
      ((parenDepths qc 0 0).1 = 0 ↔ qc.count '(' = qc.count ')') := by
    intro qc
    rw [parenDepths_fst]
    omega
  refine ⟨?_, ?_, rfl, rfl⟩
  · intro qc
    unfold validateParenDepth
    by_cases hd : (parenDepths qc 0 0).1 ≠ 0
    · rw [if_pos hd]
      have : qc.count '(' ≠ qc.count ')' := fun hcc => hd ((hfst qc).mpr hcc)
      simp [this]
    · rw [if_neg hd]
      push_neg at hd
      have hcc : qc.count '(' = qc.count ')' := (hfst qc).mp hd
      constructor
      · intro h
        exfalso
        by_cases hm : 20 < (parenDepths qc 0 0).2
        · rw [if_pos hm] at h
          injection h with h'
          exact absurd h' (by decide)
        · rw [if_neg hm] at h
          exact Except.noConfusion h
      · intro hne
        exact absurd hcc hne
  · intro qc hcc
    unfold validateParenDepth
    rw [if_neg (fun hd => hd ((hfst qc).mpr hcc))]
    have hsnd : (parenDepths qc 0 0).2 = maxPrefDepth qc 0 := by
      rw [parenDepths_snd qc 0 0 (le_refl 0),
          max_eq_right (le_maxPrefDepth qc 0)]
    by_cases hm : 20 < (parenDepths qc 0 0).2
    · rw [if_pos hm]
      rw [hsnd] at hm
      simp [hm]
    · rw [if_neg hm]
      rw [hsnd] at hm
      constructor
      · intro h
        exact Except.noConfusion h
      · intro h
        exact absurd h hm

theorem claim_C8_parentheses_witness :
    validateParenDepth ['('] = .error "unbalanced parentheses" ∧
    validateParenDepth ['(', '1', ')'] ≠ .error "unbalanced parentheses" :=
  ⟨(claim_C8_parentheses.1 ['(']).mpr (by decide),
   fun h => absurd ((claim_C8_parentheses.1 ['(', '1', ')']).mp h) (by decide)⟩

/-- Claim C9: with sane endpoint constants (default page size at least
1 and at most the cap, as at both call sites: 100/500 and 100/1000),
`GetPaginationParams` never rejects: the page is at least 1 (default 1
when missing, non-numeric or below 1), the page size is clamped into
`[1, maxPageSize]` (default when missing, non-numeric or below 1), and
the offset is `(Page - 1) * PageSize`. -/
theorem claim_C9_pagination (pageArg pageSizeArg : Option Int) (dps mps : Int)
    (h1 : 1 ≤ dps) (h2 : dps ≤ mps) :
    1 ≤ (GetPaginationParams pageArg pageSizeArg dps mps).Page ∧
    1 ≤ (GetPaginationParams pageArg pageSizeArg dps mps).PageSize ∧
    (GetPaginationParams pageArg pageSizeArg dps mps).PageSize ≤ mps ∧
    (GetPaginationParams pageArg pageSizeArg dps mps).Offset =
      ((GetPaginationParams pageArg pageSizeArg dps mps).Page - 1) *
        (GetPaginationParams pageArg pageSizeArg dps mps).PageSize ∧
    (pageArg = none → (GetPaginationParams pageArg pageSizeArg dps mps).Page = 1) ∧
    (pageSizeArg = none → (GetPaginationParams pageArg pageSizeArg dps mps).PageSize = dps) ∧
    (∀ p : Int, pageArg = some p → p < 1 →
      (GetPaginationParams pageArg pageSizeArg dps mps).Page = 1) := by
  unfold GetPaginationParams
  rcases pageArg with _ | p <;> rcases pageSizeArg with _ | ps <;> dsimp only <;>
    refine ⟨?_, ?_, ?_, rfl, ?_, ?_, ?_⟩ <;> intros
  all_goals
    first
    | rfl
    | omega
    | (split_ifs <;> omega)
    | simp_all

theorem claim_C9_pagination_witness :
    (GetPaginationParams (some (-5)) (some 701) 100 500).Page = 1 ∧
    (GetPaginationParams (some (-5)) (some 701) 100 500).PageSize = 500 ∧
    (GetPaginationParams (some (-5)) (some 701) 100 500).Offset = 0 ∧
    1 ≤ (GetPaginationParams (some (-5)) (some 701) 100 500).Page :=
  ⟨by decide, by decide, by decide,
   (claim_C9_pagination (some (-5)) (some 701) 100 500 (by norm_num) (by norm_num)).1⟩
